import Mathlib

/-!
Shallow embedding of the ivshmem ring-buffer driver
(src/ringbuf/src/ringbuf.c) and verification of its specification.

The driver moves messages between a fixed Producer side and a fixed
Consumer side through a shared memory region.  The region holds a
kfifo of 512 bytes storing fixed-size message headers, and a payload
arena addressed by the headers.  `ringbuf_write` is the producer send
path, `ringbuf_read` the consumer receive path, `ringbuf_fifo_init`
the format step.  Machine integers are modelled as `Nat` with explicit
reductions modulo `2 ^ 32` / `2 ^ 64` where the C code uses `unsigned
int` / `size_t` arithmetic; byte memory is modelled as functions
`Nat → Nat`, message traffic as lists of byte values.
-/

namespace Ringbuf

/-- Capacity in bytes of the header ring (macro RINGBUF_SZ in ringbuf.c). -/
def RINGBUF_SZ : Nat := 512

/-- Constant source tag stamped into every header (macro QEMU_PROCESS_ID). -/
def QEMU_PROCESS_ID : Nat := 1

/-- Role value for the consumer (reader) side. -/
def Consumer : Nat := 0

/-- Role value for the producer (writer) side. -/
def Producer : Nat := 1

/-- Kernel error number EFAULT; the driver returns `-EFAULT` on the
error paths of `ringbuf_read` / `ringbuf_write`. -/
def EFAULT : Int := 14

/-- Round `n` up to the next multiple of the alignment `a`
(C struct field alignment). -/
def alignUp (n a : Nat) : Nat :=
  if a = 0 then n else (n + a - 1) / a * a

/-- Size in bytes of `struct ringbuf_msg_hd` = `{unsigned int src_qid;
unsigned int payload_off; ssize_t payload_len;}` as a function of
`sizeof(ssize_t)`, following the C layout rules: two 4-byte fields,
then `payload_len` placed at an offset aligned to its own size, and the
struct size rounded up to the largest field alignment. -/
def sizeofRbmsgHd (w : Nat) : Nat :=
  alignUp (alignUp (4 + 4) w + w) (max 4 w)

/-- Size of one serialized header (macro RINGBUF_MSG_SZ =
`sizeof(rbmsg_hd)`).  The driver targets LP64 Linux, where `ssize_t`
is 8 bytes: the source hard-codes the offset `0x18` of the kfifo data
area, which equals `sizeof(struct __kfifo)` = 4 * 4 + 8 only on LP64.
Hence the header occupies 16 bytes. -/
def RINGBUF_MSG_SZ : Nat := sizeofRbmsgHd 8

/-- Message header `rbmsg_hd`: `src_qid` and `payload_off` are
`unsigned int` (32-bit); `payload_len` is declared `ssize_t` and is
modelled by its 64-bit bit pattern, which is how every use in the
driver treats it (assignment from `size_t len` and the unsigned
comparison inside `MIN(len, hd.payload_len)`). -/
structure rbmsg_hd where
  src_qid : Nat
  payload_off : Nat
  payload_len : Nat
  deriving DecidableEq

/-- Little-endian serialization of the low `w` bytes of `v`
(the memcpy of an integer field through the byte fifo). -/
def encU : Nat → Nat → List Nat
  | 0, _ => []
  | w + 1, v => v % 256 :: encU w (v / 256)

/-- Little-endian reassembly of a byte list into an integer. -/
def decU : List Nat → Nat
  | [] => 0
  | b :: rest => b + 256 * decU rest

/-- Byte image of a header as it is stored in the fifo: offsets 0..3
`src_qid`, 4..7 `payload_off`, 8..15 `payload_len` (LP64 layout, no
padding since 4 + 4 is already 8-aligned). -/
def encodeHd (hd : rbmsg_hd) : List Nat :=
  encU 4 hd.src_qid ++ (encU 4 hd.payload_off ++ encU 8 hd.payload_len)

/-- Header recovered from the 16 bytes popped off the fifo. -/
def decodeHd (bs : List Nat) : rbmsg_hd :=
  ⟨decU (bs.take 4), decU ((bs.drop 4).take 4), decU (bs.drop 8)⟩

/-- State of `STRUCT_KFIFO(char, RINGBUF_SZ)`: free-running `in` and
`out` cursors and the backing byte array, accessed at positions modulo
RINGBUF_SZ.  (In the kernel the cursors are `unsigned int`; since
RINGBUF_SZ divides 2 ^ 32 and `in - out ≤ RINGBUF_SZ` the free-running
`Nat` counters are an exact model.) -/
structure Kfifo where
  inIdx : Nat
  outIdx : Nat
  data : Nat → Nat

/-- Write the bytes of `buf` into the circular array starting at
free-running position `pos` (masked modulo RINGBUF_SZ). -/
def fifoWrite (data : Nat → Nat) (pos : Nat) (buf : List Nat) : Nat → Nat :=
  match buf with
  | [] => data
  | b :: rest =>
      fifoWrite (fun j => if j = pos % RINGBUF_SZ then b else data j) (pos + 1) rest

/-- Read `l` bytes from the circular array starting at free-running
position `pos`. -/
def fifoRead (data : Nat → Nat) (pos l : Nat) : List Nat :=
  match l with
  | 0 => []
  | k + 1 => data (pos % RINGBUF_SZ) :: fifoRead data (pos + 1) k

/-- Number of unread bytes in the fifo (`kfifo_len`). -/
def kfifo_len (f : Kfifo) : Nat := f.inIdx - f.outIdx

/-- Number of free bytes in the fifo (`kfifo_avail`). -/
def kfifo_avail (f : Kfifo) : Nat := RINGBUF_SZ - kfifo_len f

/-- Push up to `buf.length` bytes into the fifo (`kfifo_in`): copies
`min buf.length (kfifo_avail f)` bytes and advances `in` by that
amount, returning the new state and the number of bytes copied. -/
def kfifo_in (f : Kfifo) (buf : List Nat) : Kfifo × Nat :=
  let l := min buf.length (kfifo_avail f)
  (⟨f.inIdx + l, f.outIdx, fifoWrite f.data f.inIdx (buf.take l)⟩, l)

/-- Pop up to `len` bytes from the fifo (`kfifo_out`): copies
`min len (kfifo_len f)` bytes and advances `out` by that amount,
returning the new state and the bytes read. -/
def kfifo_out (f : Kfifo) (len : Nat) : Kfifo × List Nat :=
  let l := min len (kfifo_len f)
  (⟨f.inIdx, f.outIdx + l, f.data⟩, fifoRead f.data f.outIdx l)

/-- Write the bytes of `buf` into flat memory `m` starting at `off`
(the memcpy into the payload arena; the driver performs no bound
check, so the model memory is an unbounded function). -/
def memWrite (m : Nat → Nat) (off : Nat) (buf : List Nat) : Nat → Nat :=
  match buf with
  | [] => m
  | b :: rest => memWrite (fun j => if j = off then b else m j) (off + 1) rest

/-- Read `l` bytes from flat memory `m` starting at `off`. -/
def memRead (m : Nat → Nat) (off l : Nat) : List Nat :=
  match l with
  | 0 => []
  | k + 1 => m off :: memRead m (off + 1) k

/-- Shared-memory / ordering events in program order, used to record
where the driver places its barriers relative to the payload copy, the
lock, the fifo operation and the doorbell write. -/
inductive Ev where
  | payloadWrite (off len : Nat)
  | payloadRead (off len : Nat)
  | wmb
  | mb
  | rmb
  | lockAcquire
  | lockRelease
  | enqueue (bytes : List Nat)
  | dequeue (bytes : List Nat)
  | doorbell
  deriving DecidableEq

/-- State of the driver relevant to send/receive: the fixed role, the
mapping status (`base_addr` / `fifo_addr` non-NULL), the peer identity
register `ivposition` read at probe time, the shared header fifo, the
payload arena bytes, the static bump cursor `payload_pt` (an
`unsigned int`), and a counter of doorbell rings issued. -/
structure RingbufDevice where
  role : Nat
  mapped : Bool
  ivposition : Nat
  fifo : Kfifo
  payloads : Nat → Nat
  payload_pt : Nat
  rings : Nat

/-- Result of `ringbuf_write`: updated state, return value, and the
trace of shared-memory events in program order. -/
structure WriteResult where
  dev : RingbufDevice
  ret : Int
  trace : List Ev

/-- Result of `ringbuf_read`: updated state, return value, bytes
copied into the caller's buffer, and the event trace. -/
structure ReadResult where
  dev : RingbufDevice
  ret : Int
  copied : List Nat
  trace : List Ev

/-- Producer send path `ringbuf_write`: refuse (returning 0, touching
nothing) unless the role is Producer, the region is mapped and the
fifo has space for one header; otherwise build the header with
`src_qid = QEMU_PROCESS_ID`, `payload_off = payload_pt`,
`payload_len = len`, memcpy the payload into the arena at the cursor
(no bound check in the source), `wmb()`, take the write lock, `mb()`,
push the header bytes, release the lock, then ring the doorbell and
advance `payload_pt` by `len` (32-bit wrap).  The branch returning
`-EFAULT` mirrors the source's partial-enqueue check. -/
def ringbuf_write (dev : RingbufDevice) (buffer : List Nat) : WriteResult :=
  if dev.role ≠ Producer then ⟨dev, 0, []⟩
  else if dev.mapped = false then ⟨dev, 0, []⟩
  else if kfifo_avail dev.fifo < RINGBUF_MSG_SZ then ⟨dev, 0, []⟩
  else
    let hd : rbmsg_hd := ⟨QEMU_PROCESS_ID, dev.payload_pt, buffer.length % 2 ^ 64⟩
    let payloads' := memWrite dev.payloads hd.payload_off buffer
    let fs := kfifo_in dev.fifo (encodeHd hd)
    if fs.2 ≠ RINGBUF_MSG_SZ then
      ⟨{ dev with payloads := payloads', fifo := fs.1 }, -EFAULT,
        [.payloadWrite hd.payload_off buffer.length, .wmb, .lockAcquire, .mb,
          .enqueue (encodeHd hd), .lockRelease]⟩
    else
      ⟨{ dev with
          payloads := payloads'
          fifo := fs.1
          payload_pt := (dev.payload_pt + buffer.length) % 2 ^ 32
          rings := dev.rings + 1 }, 0,
        [.payloadWrite hd.payload_off buffer.length, .wmb, .lockAcquire, .mb,
          .enqueue (encodeHd hd), .lockRelease, .doorbell]⟩

/-- Consumer receive path `ringbuf_read`: refuse (returning 0, touching
nothing) unless the role is Consumer, the region is mapped and the
fifo holds at least one header; otherwise `mb()`, pop one header, and
if its `src_qid` differs from QEMU_PROCESS_ID return `-EFAULT` with
the queue already advanced and nothing copied; else `rmb()` and memcpy
`MIN(len, payload_len)` bytes from the arena at `payload_off` into the
caller's buffer (no bound check in the source), returning 0. -/
def ringbuf_read (dev : RingbufDevice) (len : Nat) : ReadResult :=
  if dev.role ≠ Consumer then ⟨dev, 0, [], []⟩
  else if dev.mapped = false then ⟨dev, 0, [], []⟩
  else if kfifo_len dev.fifo < RINGBUF_MSG_SZ then ⟨dev, 0, [], []⟩
  else
    let fb := kfifo_out dev.fifo RINGBUF_MSG_SZ
    let hd := decodeHd fb.2
    if hd.src_qid ≠ QEMU_PROCESS_ID then
      ⟨{ dev with fifo := fb.1 }, -EFAULT, [], [.mb, .dequeue fb.2]⟩
    else
      ⟨{ dev with fifo := fb.1 }, 0,
        memRead dev.payloads hd.payload_off (min len hd.payload_len),
        [.mb, .dequeue fb.2, .rmb,
          .payloadRead hd.payload_off (min len hd.payload_len)]⟩

/-- Format step `ringbuf_fifo_init`: when the size probe
`kfifo_size(fifo_addr) == RINGBUF_SZ` fails (parameter `alreadyInit` =
false) the fifo is re-initialized (cursors zeroed); in every case the
payload cursor `payload_pt` is reset to 0. -/
def ringbuf_fifo_init (alreadyInit : Bool) (dev : RingbufDevice) : RingbufDevice :=
  let d := if alreadyInit then dev else { dev with fifo := ⟨0, 0, dev.fifo.data⟩ }
  { d with payload_pt := 0 }

/-! Helper lemmas about the byte codec and the two memories. -/

theorem encU_length (w v : Nat) : (encU w v).length = w := by
  induction w generalizing v with
  | zero => rfl
  | succ k ih => simp [encU, ih]

theorem decU_encU (w v : Nat) : decU (encU w v) = v % 256 ^ w := by
  induction w generalizing v with
  | zero => simp [encU, decU, Nat.mod_one]
  | succ k ih =>
      rw [encU, decU, ih, pow_succ, Nat.mul_comm (256 ^ k) 256, Nat.mod_mul]

theorem decU_encU_of_lt (w v : Nat) (h : v < 256 ^ w) : decU (encU w v) = v := by
  rw [decU_encU, Nat.mod_eq_of_lt h]

theorem encodeHd_length (hd : rbmsg_hd) : (encodeHd hd).length = RINGBUF_MSG_SZ := by
  simp [encodeHd, List.length_append, encU_length]
  decide

theorem decodeHd_encodeHd (s o l : Nat) (h1 : s < 2 ^ 32) (h2 : o < 2 ^ 32)
    (h3 : l < 2 ^ 64) : decodeHd (encodeHd ⟨s, o, l⟩) = ⟨s, o, l⟩ := by
  have e1 : (encU 4 s).length = 4 := encU_length 4 s
  have e12 : (encU 4 s ++ encU 4 o).length = 8 := by
    rw [List.length_append, encU_length, encU_length]
  have t1 : (encU 4 s ++ (encU 4 o ++ encU 8 l)).take 4 = encU 4 s := by
    rw [← e1]; exact List.take_left _ _
  have d1 : (encU 4 s ++ (encU 4 o ++ encU 8 l)).drop 4 = encU 4 o ++ encU 8 l := by
    rw [← e1]; exact List.drop_left _ _
  have t2 : (encU 4 o ++ encU 8 l).take 4 = encU 4 o := by
    rw [← encU_length 4 o]; exact List.take_left _ _
  have d8 : (encU 4 s ++ (encU 4 o ++ encU 8 l)).drop 8 = encU 8 l := by
    rw [← List.append_assoc, ← e12]; exact List.drop_left _ _
  have p32 : (2 : Nat) ^ 32 = 256 ^ 4 := by norm_num
  have p64 : (2 : Nat) ^ 64 = 256 ^ 8 := by norm_num
  simp only [decodeHd, encodeHd, t1, d1, t2, d8]
  rw [decU_encU_of_lt 4 s (p32 ▸ h1), decU_encU_of_lt 4 o (p32 ▸ h2),
    decU_encU_of_lt 8 l (p64 ▸ h3)]

theorem fifoWrite_eq_of_ne (data : Nat → Nat) (pos : Nat) (buf : List Nat) (j : Nat)
    (h : ∀ i, i < buf.length → (pos + i) % RINGBUF_SZ ≠ j) :
    fifoWrite data pos buf j = data j := by
  induction buf generalizing data pos with
  | nil => rfl
  | cons b rest ih =>
      have h0 : ¬ (j = pos % RINGBUF_SZ) := by
        intro hh
        exact h 0 (by simp) (by simpa using hh.symm)
      rw [fifoWrite, ih]
      · simp [h0]
      · intro i hi
        have e : pos + 1 + i = pos + (i + 1) := by omega
        rw [e]
        exact h (i + 1) (by simp only [List.length_cons]; omega)

theorem fifoRead_fifoWrite (data : Nat → Nat) (pos : Nat) (buf : List Nat)
    (h : buf.length ≤ RINGBUF_SZ) :
    fifoRead (fifoWrite data pos buf) pos buf.length = buf := by
  induction buf generalizing data pos with
  | nil => rfl
  | cons b rest ih =>
      have hlen : rest.length + 1 ≤ RINGBUF_SZ := by
        simpa [List.length_cons] using h
      have hhead : fifoWrite (fun j => if j = pos % RINGBUF_SZ then b else data j)
          (pos + 1) rest (pos % RINGBUF_SZ) = b := by
        rw [fifoWrite_eq_of_ne]
        · simp
        · intro i hi hc
          have hc' : (pos + 1 + i) % 512 = pos % 512 := by
            simpa [RINGBUF_SZ] using hc
          have hi' : i < 511 := by
            have : rest.length ≤ 511 := by simpa [RINGBUF_SZ] using hlen
            omega
          omega
      simp only [List.length_cons, fifoWrite, fifoRead, hhead]
      rw [ih _ _ (by omega)]

theorem memWrite_eq_of_lt (m : Nat → Nat) (off : Nat) (buf : List Nat) (j : Nat)
    (h : j < off) : memWrite m off buf j = m j := by
  induction buf generalizing m off with
  | nil => rfl
  | cons b rest ih =>
      rw [memWrite, ih _ _ (Nat.lt_succ_of_lt h)]
      simp [Nat.ne_of_lt h]

theorem memRead_memWrite (m : Nat → Nat) (off : Nat) (buf : List Nat) (k : Nat)
    (h : k ≤ buf.length) :
    memRead (memWrite m off buf) off k = buf.take k := by
  induction buf generalizing m off k with
  | nil =>
      have : k = 0 := by simpa using h
      subst this
      rfl
  | cons b rest ih =>
      cases k with
      | zero => rfl
      | succ k' =>
          have hhead : memWrite (fun j => if j = off then b else m j) (off + 1) rest off = b := by
            rw [memWrite_eq_of_lt _ _ _ _ (Nat.lt_succ_self off)]
            simp
          simp only [memWrite, memRead, hhead, List.take_succ_cons]
          rw [ih _ _ _ (by simpa [List.length_cons] using h)]

theorem encodeHd_take (hd : rbmsg_hd) :
    (encodeHd hd).take RINGBUF_MSG_SZ = encodeHd hd := by
  rw [← encodeHd_length hd]
  exact List.take_length (encodeHd hd)

/-- Characterization of the successful send path: with the producer
role, a mapped region and space for one header, `ringbuf_write` copies
the payload at the cursor, appends the encoded header, bumps the
cursor modulo 2 ^ 32, rings the doorbell once and returns 0. -/
theorem ringbuf_write_success (dev : RingbufDevice) (buffer : List Nat)
    (hrole : dev.role = Producer) (hm : dev.mapped = true)
    (hsp : RINGBUF_MSG_SZ ≤ kfifo_avail dev.fifo) :
    ringbuf_write dev buffer =
      ⟨{ dev with
          payloads := memWrite dev.payloads dev.payload_pt buffer
          fifo := ⟨dev.fifo.inIdx + RINGBUF_MSG_SZ, dev.fifo.outIdx,
            fifoWrite dev.fifo.data dev.fifo.inIdx
              (encodeHd ⟨QEMU_PROCESS_ID, dev.payload_pt, buffer.length % 2 ^ 64⟩)⟩
          payload_pt := (dev.payload_pt + buffer.length) % 2 ^ 32
          rings := dev.rings + 1 }, 0,
        [.payloadWrite dev.payload_pt buffer.length, .wmb, .lockAcquire, .mb,
          .enqueue (encodeHd ⟨QEMU_PROCESS_ID, dev.payload_pt, buffer.length % 2 ^ 64⟩),
          .lockRelease, .doorbell]⟩ := by
  have hmin : min (encodeHd ⟨QEMU_PROCESS_ID, dev.payload_pt,
      buffer.length % 2 ^ 64⟩).length (kfifo_avail dev.fifo) = RINGBUF_MSG_SZ := by
    rw [encodeHd_length]
    exact Nat.min_eq_left hsp
  simp only [ringbuf_write, hrole, hm, ne_eq, not_true_eq_false, if_false,
    Bool.true_eq_false, kfifo_in, hmin, encodeHd_take, Nat.not_lt.mpr hsp,
    not_false_eq_true, if_true, ite_false, ite_true]

/-- Characterization of the receive path when the dequeued header
carries the expected source tag: the header is popped, and
`MIN(len, payload_len)` payload bytes are copied out from
`payload_off`, returning 0. -/
theorem ringbuf_read_accept (dev : RingbufDevice) (len : Nat)
    (hrole : dev.role = Consumer) (hm : dev.mapped = true)
    (hlen : RINGBUF_MSG_SZ ≤ kfifo_len dev.fifo)
    (hsrc : (decodeHd (fifoRead dev.fifo.data dev.fifo.outIdx RINGBUF_MSG_SZ)).src_qid
      = QEMU_PROCESS_ID) :
    ringbuf_read dev len =
      ⟨{ dev with fifo := ⟨dev.fifo.inIdx, dev.fifo.outIdx + RINGBUF_MSG_SZ,
          dev.fifo.data⟩ }, 0,
        memRead dev.payloads
          (decodeHd (fifoRead dev.fifo.data dev.fifo.outIdx RINGBUF_MSG_SZ)).payload_off
          (min len (decodeHd (fifoRead dev.fifo.data dev.fifo.outIdx
            RINGBUF_MSG_SZ)).payload_len),
        [.mb, .dequeue (fifoRead dev.fifo.data dev.fifo.outIdx RINGBUF_MSG_SZ), .rmb,
          .payloadRead (decodeHd (fifoRead dev.fifo.data dev.fifo.outIdx
              RINGBUF_MSG_SZ)).payload_off
            (min len (decodeHd (fifoRead dev.fifo.data dev.fifo.outIdx
              RINGBUF_MSG_SZ)).payload_len)]⟩ := by
  have hmin : min RINGBUF_MSG_SZ (kfifo_len dev.fifo) = RINGBUF_MSG_SZ :=
    Nat.min_eq_left hlen
  simp only [ringbuf_read, hrole, hm, ne_eq, not_true_eq_false, if_false,
    Bool.true_eq_false, kfifo_out, hmin, hsrc, Nat.not_lt.mpr hlen,
    not_false_eq_true, if_true, ite_false, ite_true]

/-- Characterization of the receive path when the dequeued header
carries an unexpected source tag: the header is popped (queue position
advanced), nothing is copied, and `-EFAULT` is returned. -/
theorem ringbuf_read_reject (dev : RingbufDevice) (len : Nat)
    (hrole : dev.role = Consumer) (hm : dev.mapped = true)
    (hlen : RINGBUF_MSG_SZ ≤ kfifo_len dev.fifo)
    (hsrc : (decodeHd (fifoRead dev.fifo.data dev.fifo.outIdx RINGBUF_MSG_SZ)).src_qid
      ≠ QEMU_PROCESS_ID) :
    ringbuf_read dev len =
      ⟨{ dev with fifo := ⟨dev.fifo.inIdx, dev.fifo.outIdx + RINGBUF_MSG_SZ,
          dev.fifo.data⟩ }, -EFAULT, [],
        [.mb, .dequeue (fifoRead dev.fifo.data dev.fifo.outIdx RINGBUF_MSG_SZ)]⟩ := by
  have hmin : min RINGBUF_MSG_SZ (kfifo_len dev.fifo) = RINGBUF_MSG_SZ :=
    Nat.min_eq_left hlen
  simp only [ringbuf_read, hrole, hm, ne_eq, not_true_eq_false, if_false,
    Bool.true_eq_false, kfifo_out, hmin, hsrc, Nat.not_lt.mpr hlen,
    not_false_eq_true, if_true, ite_false, ite_true]

/-- Characterization of the refused send paths: wrong role, unmapped
region or insufficient fifo space each return 0 leaving the whole
state untouched and emitting no shared-memory event. -/
theorem ringbuf_write_noop (dev : RingbufDevice) (buffer : List Nat)
    (h : dev.role ≠ Producer ∨ dev.mapped = false ∨
      kfifo_avail dev.fifo < RINGBUF_MSG_SZ) :
    ringbuf_write dev buffer = ⟨dev, 0, []⟩ := by
  rcases h with h | h | h
  · simp [ringbuf_write, h]
  · by_cases h1 : dev.role = Producer
    · simp [ringbuf_write, h1, h]
    · simp [ringbuf_write, h1]
  · by_cases h1 : dev.role = Producer
    · by_cases h2 : dev.mapped = false
      · simp [ringbuf_write, h1, h2]
      · simp [ringbuf_write, h1, h2, h]
    · simp [ringbuf_write, h1]

/-- Characterization of the refused receive paths: wrong role,
unmapped region or fewer queued bytes than one header each return 0
leaving the whole state untouched, copying nothing. -/
theorem ringbuf_read_noop (dev : RingbufDevice) (len : Nat)
    (h : dev.role ≠ Consumer ∨ dev.mapped = false ∨
      kfifo_len dev.fifo < RINGBUF_MSG_SZ) :
    ringbuf_read dev len = ⟨dev, 0, [], []⟩ := by
  rcases h with h | h | h
  · simp [ringbuf_read, h]
  · by_cases h1 : dev.role = Consumer
    · simp [ringbuf_read, h1, h]
    · simp [ringbuf_read, h1]
  · by_cases h1 : dev.role = Consumer
    · by_cases h2 : dev.mapped = false
      · simp [ringbuf_read, h1, h2]
      · simp [ringbuf_read, h1, h2, h]
    · simp [ringbuf_read, h1]

/-- Header decoded back out of the fifo right after a successful send
on an otherwise idle queue: exactly the header the producer built. -/
theorem write_then_decode (dev : RingbufDevice) (P : List Nat)
    (hrole : dev.role = Producer) (hm : dev.mapped = true)
    (hidle : dev.fifo.outIdx = dev.fifo.inIdx)
    (hpt : dev.payload_pt < 2 ^ 32) :
    decodeHd (fifoRead (ringbuf_write dev P).dev.fifo.data
        (ringbuf_write dev P).dev.fifo.outIdx RINGBUF_MSG_SZ)
      = ⟨QEMU_PROCESS_ID, dev.payload_pt, P.length % 2 ^ 64⟩ := by
  have hsp : RINGBUF_MSG_SZ ≤ kfifo_avail dev.fifo := by
    simp [kfifo_avail, kfifo_len, hidle, RINGBUF_SZ]
    decide
  rw [ringbuf_write_success dev P hrole hm hsp]
  simp only []
  rw [hidle]
  conv_lhs => rw [← encodeHd_length ⟨QEMU_PROCESS_ID, dev.payload_pt, P.length % 2 ^ 64⟩]
  rw [fifoRead_fifoWrite _ _ _ (by rw [encodeHd_length]; decide)]
  exact decodeHd_encodeHd QEMU_PROCESS_ID dev.payload_pt (P.length % 2 ^ 64)
    (by norm_num [QEMU_PROCESS_ID]) hpt (Nat.mod_lt _ (by norm_num))

/-! Concrete device states used to instantiate the hypotheses of the
general theorems below. -/

/-- Freshly formatted producer-side device with zeroed memories. -/
def prodDev : RingbufDevice :=
  ⟨Producer, true, 0, ⟨0, 0, fun _ => 0⟩, (fun _ => 0), 0, 0⟩

/-- Producer-side device whose 32-bit payload cursor sits one byte
below its wrap point. -/
def prodDevWrap : RingbufDevice :=
  { prodDev with payload_pt := 2 ^ 32 - 1 }

/-- Consumer-side device whose fifo holds one header carrying source
tag 2 (different from QEMU_PROCESS_ID). -/
def consDevBadSrc : RingbufDevice :=
  ⟨Consumer, true, 0, ⟨16, 0, fifoWrite (fun _ => 0) 0 (encodeHd ⟨2, 0, 0⟩)⟩,
    (fun _ => 0), 0, 0⟩

/-- Consumer-side device whose fifo holds one well-tagged header that
addresses bytes far beyond a 100-byte arena; the arena bytes below
offset 100 are 0, everything past the boundary reads 9. -/
def consDevFarOff : RingbufDevice :=
  ⟨Consumer, true, 0, ⟨16, 0, fifoWrite (fun _ => 0) 0 (encodeHd ⟨1, 1000, 4⟩)⟩,
    (fun j => if j < 100 then 0 else 9), 0, 0⟩

/-! The claims. -/

/-- C1: for every payload byte sequence P, a receive performed by the
consumer side immediately after a successful send(P) on an
otherwise-idle queue copies into the caller's buffer bytes equal to P,
truncated to min(caller_buffer_len, len(P)).  The consumer session
`cons` shares the fifo and the payload arena left by the send, as the
two sides share the memory region.  (The arena-capacity premise of the
claim is not needed: the theorem holds for every P, the code never
consulting any capacity.) -/
theorem C1_send_receive_roundtrip (dev cons : RingbufDevice) (P : List Nat) (blen : Nat)
    (hrole : dev.role = Producer) (hm : dev.mapped = true)
    (hidle : dev.fifo.outIdx = dev.fifo.inIdx)
    (hpt : dev.payload_pt < 2 ^ 32) (hlen : P.length < 2 ^ 64)
    (hcrole : cons.role = Consumer) (hcm : cons.mapped = true)
    (hcf : cons.fifo = (ringbuf_write dev P).dev.fifo)
    (hcp : cons.payloads = (ringbuf_write dev P).dev.payloads) :
    (ringbuf_write dev P).ret = 0 ∧
    (ringbuf_read cons blen).copied = P.take (min blen P.length) := by
  have hsp : RINGBUF_MSG_SZ ≤ kfifo_avail dev.fifo := by
    simp [kfifo_avail, kfifo_len, hidle, RINGBUF_SZ]
    decide
  have hdec := write_then_decode dev P hrole hm hidle hpt
  have hW := ringbuf_write_success dev P hrole hm hsp
  constructor
  · rw [hW]
  · have hfifo : cons.fifo = ⟨dev.fifo.inIdx + RINGBUF_MSG_SZ, dev.fifo.outIdx,
        fifoWrite dev.fifo.data dev.fifo.inIdx
          (encodeHd ⟨QEMU_PROCESS_ID, dev.payload_pt, P.length % 2 ^ 64⟩)⟩ := by
      rw [hcf, hW]
    have hclen : RINGBUF_MSG_SZ ≤ kfifo_len cons.fifo := by
      rw [hfifo]
      simp [kfifo_len, hidle]
    have hcdec : decodeHd (fifoRead cons.fifo.data cons.fifo.outIdx RINGBUF_MSG_SZ)
        = ⟨QEMU_PROCESS_ID, dev.payload_pt, P.length % 2 ^ 64⟩ := by
      rw [hfifo]
      rw [hW] at hdec
      simpa using hdec
    have hsrc : (decodeHd (fifoRead cons.fifo.data cons.fifo.outIdx
        RINGBUF_MSG_SZ)).src_qid = QEMU_PROCESS_ID := by rw [hcdec]
    have hmr : memRead (memWrite dev.payloads dev.payload_pt P) dev.payload_pt
        (min blen P.length) = P.take (min blen P.length) :=
      memRead_memWrite _ _ _ _ (min_le_right _ _)
    have h64 : P.length % 18446744073709551616 = P.length :=
      Nat.mod_eq_of_lt (by omega)
    rw [ringbuf_read_accept cons blen hcrole hcm hclen hsrc]
    simp [hcdec, hcp, hW, h64, hmr]

/-- Witness for C1 at a concrete input: send the two bytes 104, 105 on
a freshly formatted region and receive into a 16-byte buffer. -/
theorem C1_witness :
    (ringbuf_write prodDev [104, 105]).ret = 0 ∧
    (ringbuf_read { (ringbuf_write prodDev [104, 105]).dev with role := Consumer }
        16).copied = [104, 105].take (min 16 [104, 105].length) :=
  C1_send_receive_roundtrip prodDev
    { (ringbuf_write prodDev [104, 105]).dev with role := Consumer } [104, 105] 16
    rfl rfl rfl (by decide) (by decide) rfl (by decide) rfl rfl

/-- C2: the claim says a send whose length exceeds the remaining
arena capacity fails with an explicit exhaustion error, writes no
payload byte and enqueues no header.  The source performs no such
check: this theorem evaluates the failing input — a 3-byte arena
(offsets 0..2) and a 5-byte send from cursor 0 — and shows the send
returns 0 (success), stores payload bytes at the out-of-range offsets
3 and 4, enqueues a full header and advances the cursor to 5. -/
theorem C2_no_exhaustion_check :
    (ringbuf_write prodDev [7, 7, 7, 7, 7]).ret = 0 ∧
    (ringbuf_write prodDev [7, 7, 7, 7, 7]).dev.payloads 3 = 7 ∧
    (ringbuf_write prodDev [7, 7, 7, 7, 7]).dev.payloads 4 = 7 ∧
    (ringbuf_write prodDev [7, 7, 7, 7, 7]).dev.fifo.inIdx = RINGBUF_MSG_SZ ∧
    (ringbuf_write prodDev [7, 7, 7, 7, 7]).dev.payload_pt = 5 ∧
    (ringbuf_write prodDev [7, 7, 7, 7, 7]).dev.rings = 1 := by
  decide

/-- C3: the claim says the consumer copy-out bound-checks
payload_offset + payload_length against the arena capacity before
copying.  The source performs no such check: this theorem evaluates
the failing input — a dequeued header addressing offsets 1000..1003 of
an arena whose capacity is 100 bytes (every byte past the boundary
holds 9) — and shows the receive returns 0 and copies the four
out-of-range bytes into the caller's buffer. -/
theorem C3_no_resolve_bound_check :
    (ringbuf_read consDevFarOff 4).ret = 0 ∧
    (ringbuf_read consDevFarOff 4).copied = [9, 9, 9, 9] := by
  decide

/-- C4: a receive that dequeues a header whose source tag differs from
the expected tag QEMU_PROCESS_ID rejects the message with `-EFAULT`,
with the queue position already advanced past the header (the item is
consumed, not left at the head) and no payload bytes copied into the
caller's buffer; the arena is untouched. -/
theorem C4_mismatch_consumed (dev : RingbufDevice) (len : Nat)
    (hrole : dev.role = Consumer) (hm : dev.mapped = true)
    (hlen : RINGBUF_MSG_SZ ≤ kfifo_len dev.fifo)
    (hsrc : (decodeHd (fifoRead dev.fifo.data dev.fifo.outIdx RINGBUF_MSG_SZ)).src_qid
      ≠ QEMU_PROCESS_ID) :
    (ringbuf_read dev len).ret = -EFAULT ∧
    (ringbuf_read dev len).copied = [] ∧
    (ringbuf_read dev len).dev.fifo.outIdx = dev.fifo.outIdx + RINGBUF_MSG_SZ ∧
    (ringbuf_read dev len).dev.fifo.inIdx = dev.fifo.inIdx ∧
    (ringbuf_read dev len).dev.payloads = dev.payloads := by
  rw [ringbuf_read_reject dev len hrole hm hlen hsrc]
  exact ⟨rfl, rfl, rfl, rfl, rfl⟩

/-- Witness for C4: a queued header with source tag 2 is dropped with
the queue advanced by one header. -/
theorem C4_witness :
    (ringbuf_read consDevBadSrc 8).ret = -EFAULT ∧
    (ringbuf_read consDevBadSrc 8).copied = [] ∧
    (ringbuf_read consDevBadSrc 8).dev.fifo.outIdx
      = consDevBadSrc.fifo.outIdx + RINGBUF_MSG_SZ ∧
    (ringbuf_read consDevBadSrc 8).dev.fifo.inIdx = consDevBadSrc.fifo.inIdx ∧
    (ringbuf_read consDevBadSrc 8).dev.payloads = consDevBadSrc.payloads :=
  C4_mismatch_consumed consDevBadSrc 8 rfl rfl (by decide) (by decide)

/-- C5: a send attempted with a non-producer role, an unmapped region,
or less queue space than one header size is a complete no-op returning
0: the state (fifo cursors and bytes, payload arena, payload cursor,
doorbell count) is exactly unchanged and no shared-memory event is
issued. -/
theorem C5_send_noop (dev : RingbufDevice) (buffer : List Nat)
    (h : dev.role ≠ Producer ∨ dev.mapped = false ∨
      kfifo_avail dev.fifo < RINGBUF_MSG_SZ) :
    ringbuf_write dev buffer = ⟨dev, 0, []⟩ :=
  ringbuf_write_noop dev buffer h

/-- Witness for C5: a consumer-role device refuses a send unchanged. -/
theorem C5_witness :
    ringbuf_write consDevBadSrc [1, 2, 3] = ⟨consDevBadSrc, 0, []⟩ :=
  C5_send_noop consDevBadSrc [1, 2, 3] (Or.inl (by decide))

/-- Exhaustive case split for the send path: either the call is one
of the refusals (complete no-op), or all three guards hold and the
successful characterization applies. -/
theorem ringbuf_write_cases (dev : RingbufDevice) (buf : List Nat) :
    ringbuf_write dev buf = ⟨dev, 0, []⟩ ∨
    (dev.role = Producer ∧ dev.mapped = true ∧
      RINGBUF_MSG_SZ ≤ kfifo_avail dev.fifo) := by
  by_cases h1 : dev.role = Producer
  · by_cases h2 : dev.mapped = true
    · by_cases h3 : RINGBUF_MSG_SZ ≤ kfifo_avail dev.fifo
      · exact Or.inr ⟨h1, h2, h3⟩
      · exact Or.inl (ringbuf_write_noop _ _ (Or.inr (Or.inr (Nat.not_le.mp h3))))
    · exact Or.inl (ringbuf_write_noop _ _ (Or.inr (Or.inl (by simpa using h2))))
  · exact Or.inl (ringbuf_write_noop _ _ (Or.inl h1))

/-- Exhaustive case split for the receive path: either a refusal
(complete no-op), or all three guards hold. -/
theorem ringbuf_read_cases (dev : RingbufDevice) (len : Nat) :
    ringbuf_read dev len = ⟨dev, 0, [], []⟩ ∨
    (dev.role = Consumer ∧ dev.mapped = true ∧
      RINGBUF_MSG_SZ ≤ kfifo_len dev.fifo) := by
  by_cases h1 : dev.role = Consumer
  · by_cases h2 : dev.mapped = true
    · by_cases h3 : RINGBUF_MSG_SZ ≤ kfifo_len dev.fifo
      · exact Or.inr ⟨h1, h2, h3⟩
      · exact Or.inl (ringbuf_read_noop _ _ (Or.inr (Or.inr (Nat.not_le.mp h3))))
    · exact Or.inl (ringbuf_read_noop _ _ (Or.inr (Or.inl (by simpa using h2))))
  · exact Or.inl (ringbuf_read_noop _ _ (Or.inl h1))

/-- C6 counterexample: on the LP64 target of this driver the header
does not occupy 12 bytes and 512 / sizeof(header) is not 42; the
header occupies 16 bytes (see RINGBUF_MSG_SZ: the hard-coded kfifo
data offset 0x18 in the source pins the LP64 layout, under which
`ssize_t payload_len` is 8 bytes and the struct is padded to 16). -/
theorem C6_counterexample :
    RINGBUF_MSG_SZ ≠ 12 ∧ RINGBUF_SZ / RINGBUF_MSG_SZ ≠ 42 ∧
    sizeofRbmsgHd 8 = 16 ∧ sizeofRbmsgHd 4 = 12 := by
  decide

/-- C6 (amended): with queue capacity 512 bytes and the 16-byte LP64
header, the queue holds at most 32 complete outstanding headers and
never a partial one: each send leaves the write cursor unchanged or
advances it by exactly one header size, each receive likewise for the
read cursor, the queued byte count never exceeds the 512-byte
capacity, and header-multiple queue lengths are preserved by both
operations. -/
theorem C6_header_size_and_capacity :
    RINGBUF_MSG_SZ = 16 ∧ RINGBUF_SZ / RINGBUF_MSG_SZ = 32 ∧
    (∀ dev buf, (ringbuf_write dev buf).dev.fifo.inIdx = dev.fifo.inIdx ∨
      (ringbuf_write dev buf).dev.fifo.inIdx = dev.fifo.inIdx + RINGBUF_MSG_SZ) ∧
    (∀ dev len, (ringbuf_read dev len).dev.fifo.outIdx = dev.fifo.outIdx ∨
      (ringbuf_read dev len).dev.fifo.outIdx = dev.fifo.outIdx + RINGBUF_MSG_SZ) ∧
    (∀ dev buf, kfifo_len dev.fifo ≤ RINGBUF_SZ →
      kfifo_len (ringbuf_write dev buf).dev.fifo ≤ RINGBUF_SZ) ∧
    (∀ dev buf, dev.fifo.outIdx ≤ dev.fifo.inIdx →
      RINGBUF_MSG_SZ ∣ kfifo_len dev.fifo →
      RINGBUF_MSG_SZ ∣ kfifo_len (ringbuf_write dev buf).dev.fifo) ∧
    (∀ dev len, RINGBUF_MSG_SZ ∣ kfifo_len dev.fifo →
      RINGBUF_MSG_SZ ∣ kfifo_len (ringbuf_read dev len).dev.fifo) := by
  have hM : RINGBUF_MSG_SZ = 16 := by decide
  have hS : RINGBUF_SZ = 512 := rfl
  refine ⟨hM, by decide, ?_, ?_, ?_, ?_, ?_⟩
  · intro dev buf
    rcases ringbuf_write_cases dev buf with h | ⟨h1, h2, h3⟩
    · exact Or.inl (by rw [h])
    · exact Or.inr (by rw [ringbuf_write_success dev buf h1 h2 h3])
  · intro dev len
    rcases ringbuf_read_cases dev len with h | ⟨h1, h2, h3⟩
    · exact Or.inl (by rw [h])
    · by_cases h4 : (decodeHd (fifoRead dev.fifo.data dev.fifo.outIdx
          RINGBUF_MSG_SZ)).src_qid = QEMU_PROCESS_ID
      · exact Or.inr (by rw [ringbuf_read_accept dev len h1 h2 h3 h4])
      · exact Or.inr (by rw [ringbuf_read_reject dev len h1 h2 h3 h4])
  · intro dev buf hlen
    rcases ringbuf_write_cases dev buf with h | ⟨h1, h2, h3⟩
    · rw [h]
      exact hlen
    · rw [ringbuf_write_success dev buf h1 h2 h3]
      rw [hM] at h3 ⊢
      rw [hS] at hlen ⊢
      simp only [kfifo_len, kfifo_avail, hM, hS] at h3 hlen ⊢
      omega
  · intro dev buf hout hdvd
    rcases ringbuf_write_cases dev buf with h | ⟨h1, h2, h3⟩
    · rw [h]
      exact hdvd
    · rw [ringbuf_write_success dev buf h1 h2 h3]
      obtain ⟨c, hc⟩ := hdvd
      simp only [kfifo_len] at hc ⊢
      rw [hM] at hc ⊢
      exact ⟨c + 1, by omega⟩
  · intro dev len hdvd
    rcases ringbuf_read_cases dev len with h | ⟨h1, h2, h3⟩
    · rw [h]
      exact hdvd
    · obtain ⟨c, hc⟩ := hdvd
      have h3' : 16 ≤ dev.fifo.inIdx - dev.fifo.outIdx := by
        rw [hM] at h3
        exact h3
      simp only [kfifo_len] at hc h3' ⊢
      rw [hM] at hc
      have hgoal : RINGBUF_MSG_SZ ∣ dev.fifo.inIdx - (dev.fifo.outIdx + RINGBUF_MSG_SZ) := by
        rw [hM]
        exact ⟨c - 1, by omega⟩
      by_cases h4 : (decodeHd (fifoRead dev.fifo.data dev.fifo.outIdx
          RINGBUF_MSG_SZ)).src_qid = QEMU_PROCESS_ID
      · rw [ringbuf_read_accept dev len h1 h2 h3 h4]
        exact hgoal
      · rw [ringbuf_read_reject dev len h1 h2 h3 h4]
        exact hgoal

/-- Witness for C6, instantiating the three guarded conjuncts: a
one-byte send on a fresh region and a receive of the queued (bad-tag)
header keep the queued byte count a header multiple within capacity. -/
theorem C6_witness :
    kfifo_len (ringbuf_write prodDev [7]).dev.fifo ≤ RINGBUF_SZ ∧
    RINGBUF_MSG_SZ ∣ kfifo_len (ringbuf_write prodDev [7]).dev.fifo ∧
    RINGBUF_MSG_SZ ∣ kfifo_len (ringbuf_read consDevBadSrc 4).dev.fifo :=
  ⟨C6_header_size_and_capacity.2.2.2.2.1 prodDev [7] (by decide),
    C6_header_size_and_capacity.2.2.2.2.2.1 prodDev [7] (by decide) (by decide),
    C6_header_size_and_capacity.2.2.2.2.2.2 consDevBadSrc 4 (by decide)⟩

/-- C7 counterexample: the cursor is a 32-bit `unsigned int`, so a
successful send does not always advance it by exactly the payload
length and it can decrease: sending 2 bytes with the cursor at
2 ^ 32 - 1 succeeds (returns 0 and rings the doorbell) and leaves the
cursor at 1, strictly below its previous value. -/
theorem C7_counterexample :
    (ringbuf_write prodDevWrap [3, 3]).ret = 0 ∧
    (ringbuf_write prodDevWrap [3, 3]).dev.rings = prodDevWrap.rings + 1 ∧
    (ringbuf_write prodDevWrap [3, 3]).dev.payload_pt = 1 ∧
    (ringbuf_write prodDevWrap [3, 3]).dev.payload_pt < prodDevWrap.payload_pt := by
  decide

/-- C7 (amended): the payload cursor is reset to 0 at format time;
every successful send advances it by exactly the payload length modulo
2 ^ 32 (hence by exactly the payload length, monotonically, whenever
the sum stays below 2 ^ 32, successive sends obtaining contiguous
non-overlapping ranges); no other transition touches it: failed sends
and every receive leave it unchanged. -/
theorem C7_cursor_init_and_advance :
    (∀ b dev, (ringbuf_fifo_init b dev).payload_pt = 0) ∧
    (∀ dev buf, dev.role = Producer → dev.mapped = true →
      RINGBUF_MSG_SZ ≤ kfifo_avail dev.fifo →
      (ringbuf_write dev buf).dev.payload_pt
        = (dev.payload_pt + buf.length) % 2 ^ 32) ∧
    (∀ dev buf, (ringbuf_write dev buf).dev.payload_pt = dev.payload_pt ∨
      (ringbuf_write dev buf).dev.payload_pt
        = (dev.payload_pt + buf.length) % 2 ^ 32) ∧
    (∀ dev len, (ringbuf_read dev len).dev.payload_pt = dev.payload_pt) ∧
    (∀ dev buf, dev.role = Producer → dev.mapped = true →
      RINGBUF_MSG_SZ ≤ kfifo_avail dev.fifo →
      dev.payload_pt + buf.length < 2 ^ 32 →
      (ringbuf_write dev buf).dev.payload_pt = dev.payload_pt + buf.length) := by
  refine ⟨?_, ?_, ?_, ?_, ?_⟩
  · intro b dev
    rfl
  · intro dev buf h1 h2 h3
    rw [ringbuf_write_success dev buf h1 h2 h3]
  · intro dev buf
    rcases ringbuf_write_cases dev buf with h | ⟨h1, h2, h3⟩
    · exact Or.inl (by rw [h])
    · exact Or.inr (by rw [ringbuf_write_success dev buf h1 h2 h3])
  · intro dev len
    rcases ringbuf_read_cases dev len with h | ⟨h1, h2, h3⟩
    · rw [h]
    · by_cases h4 : (decodeHd (fifoRead dev.fifo.data dev.fifo.outIdx
          RINGBUF_MSG_SZ)).src_qid = QEMU_PROCESS_ID
      · rw [ringbuf_read_accept dev len h1 h2 h3 h4]
      · rw [ringbuf_read_reject dev len h1 h2 h3 h4]
  · intro dev buf h1 h2 h3 h4
    rw [ringbuf_write_success dev buf h1 h2 h3]
    exact Nat.mod_eq_of_lt h4

/-- Witness for C7, instantiating every guarded conjunct at concrete
states: format resets the wrapped cursor, a one-byte send from a fresh
region advances the cursor by exactly one, and a receive leaves it
unchanged. -/
theorem C7_witness :
    (ringbuf_fifo_init false prodDevWrap).payload_pt = 0 ∧
    (ringbuf_write prodDev [9]).dev.payload_pt
      = (prodDev.payload_pt + [9].length) % 2 ^ 32 ∧
    (ringbuf_read consDevBadSrc 4).dev.payload_pt = consDevBadSrc.payload_pt ∧
    (ringbuf_write prodDev [9]).dev.payload_pt = prodDev.payload_pt + [9].length :=
  ⟨C7_cursor_init_and_advance.1 false prodDevWrap,
    C7_cursor_init_and_advance.2.1 prodDev [9] rfl rfl (by decide),
    C7_cursor_init_and_advance.2.2.2.1 consDevBadSrc 4,
    C7_cursor_init_and_advance.2.2.2.2 prodDev [9] rfl rfl (by decide) (by decide)⟩

/-- C8: on every successful send the producer's program order is:
write all payload bytes into the arena, write barrier (`wmb`), take
the lock, full barrier (`mb`), enqueue the header referencing those
bytes, release the lock, ring the doorbell — so the payload write and
a release barrier precede the header enqueue (trace positions 0, 1
and 4).  On every accepting receive the consumer's program order is:
full barrier, dequeue the header, read barrier (`rmb`), read the
payload bytes at the header's offset/length — so an acquire barrier
sits between the dequeue and the payload read (positions 1, 2, 3). -/
theorem C8_barrier_placement (dev cons : RingbufDevice) (buf : List Nat) (len : Nat)
    (hrole : dev.role = Producer) (hm : dev.mapped = true)
    (hsp : RINGBUF_MSG_SZ ≤ kfifo_avail dev.fifo)
    (hcrole : cons.role = Consumer) (hcm : cons.mapped = true)
    (hclen : RINGBUF_MSG_SZ ≤ kfifo_len cons.fifo)
    (hcsrc : (decodeHd (fifoRead cons.fifo.data cons.fifo.outIdx
      RINGBUF_MSG_SZ)).src_qid = QEMU_PROCESS_ID) :
    (ringbuf_write dev buf).trace =
      [.payloadWrite dev.payload_pt buf.length, .wmb, .lockAcquire, .mb,
        .enqueue (encodeHd ⟨QEMU_PROCESS_ID, dev.payload_pt, buf.length % 2 ^ 64⟩),
        .lockRelease, .doorbell] ∧
    (ringbuf_read cons len).trace =
      [.mb, .dequeue (fifoRead cons.fifo.data cons.fifo.outIdx RINGBUF_MSG_SZ), .rmb,
        .payloadRead (decodeHd (fifoRead cons.fifo.data cons.fifo.outIdx
            RINGBUF_MSG_SZ)).payload_off
          (min len (decodeHd (fifoRead cons.fifo.data cons.fifo.outIdx
            RINGBUF_MSG_SZ)).payload_len)] := by
  constructor
  · rw [ringbuf_write_success dev buf hrole hm hsp]
  · rw [ringbuf_read_accept cons len hcrole hcm hclen hcsrc]

/-- Witness for C8: the traces of a concrete send of one byte and a
concrete accepting receive. -/
theorem C8_witness :
    (ringbuf_write prodDev [9]).trace =
      [.payloadWrite prodDev.payload_pt [9].length, .wmb, .lockAcquire, .mb,
        .enqueue (encodeHd ⟨QEMU_PROCESS_ID, prodDev.payload_pt,
          [9].length % 2 ^ 64⟩), .lockRelease, .doorbell] ∧
    (ringbuf_read consDevFarOff 4).trace =
      [.mb, .dequeue (fifoRead consDevFarOff.fifo.data consDevFarOff.fifo.outIdx
          RINGBUF_MSG_SZ), .rmb,
        .payloadRead (decodeHd (fifoRead consDevFarOff.fifo.data
            consDevFarOff.fifo.outIdx RINGBUF_MSG_SZ)).payload_off
          (min 4 (decodeHd (fifoRead consDevFarOff.fifo.data
            consDevFarOff.fifo.outIdx RINGBUF_MSG_SZ)).payload_len)] :=
  C8_barrier_placement prodDev consDevFarOff [9] 4 rfl rfl (by decide) rfl rfl
    (by decide) (by decide)

/-- C9: the receive operation returns 0 both when it copies payload
bytes out and when it does nothing (wrong role, unmapped region, or
queue shorter than one header); the byte count is never reported, and
the only other return value is `-EFAULT`, produced exactly on a
source-tag mismatch of a dequeued header. -/
theorem C9_read_return_collapse (dev : RingbufDevice) (len : Nat) :
    ((ringbuf_read dev len).ret = 0 ∨ (ringbuf_read dev len).ret = -EFAULT) ∧
    ((ringbuf_read dev len).ret = -EFAULT ↔
      dev.role = Consumer ∧ dev.mapped = true ∧
      RINGBUF_MSG_SZ ≤ kfifo_len dev.fifo ∧
      (decodeHd (fifoRead dev.fifo.data dev.fifo.outIdx RINGBUF_MSG_SZ)).src_qid
        ≠ QEMU_PROCESS_ID) := by
  by_cases h1 : dev.role = Consumer
  · by_cases h2 : dev.mapped = true
    · by_cases h3 : RINGBUF_MSG_SZ ≤ kfifo_len dev.fifo
      · by_cases h4 : (decodeHd (fifoRead dev.fifo.data dev.fifo.outIdx
            RINGBUF_MSG_SZ)).src_qid = QEMU_PROCESS_ID
        · rw [ringbuf_read_accept dev len h1 h2 h3 h4]
          refine ⟨Or.inl rfl, ?_⟩
          simp [EFAULT, h4]
        · rw [ringbuf_read_reject dev len h1 h2 h3 h4]
          refine ⟨Or.inr rfl, ?_⟩
          simp [EFAULT, h1, h2, h3, h4]
      · rw [ringbuf_read_noop dev len (Or.inr (Or.inr (Nat.not_le.mp h3)))]
        refine ⟨Or.inl rfl, ?_⟩
        simp [EFAULT, h3]
    · rw [ringbuf_read_noop dev len (Or.inr (Or.inl (by simpa using h2)))]
      refine ⟨Or.inl rfl, ?_⟩
      simp [EFAULT, h2]
  · rw [ringbuf_read_noop dev len (Or.inl h1)]
    refine ⟨Or.inl rfl, ?_⟩
    simp [EFAULT, h1]

/-- Witness for C9 at a concrete state: the bad-tag receive takes the
`-EFAULT` branch of the disjunction and satisfies the mismatch
characterization. -/
theorem C9_witness :
    ((ringbuf_read consDevBadSrc 4).ret = 0 ∨
      (ringbuf_read consDevBadSrc 4).ret = -EFAULT) ∧
    ((ringbuf_read consDevBadSrc 4).ret = -EFAULT ↔
      consDevBadSrc.role = Consumer ∧ consDevBadSrc.mapped = true ∧
      RINGBUF_MSG_SZ ≤ kfifo_len consDevBadSrc.fifo ∧
      (decodeHd (fifoRead consDevBadSrc.fifo.data consDevBadSrc.fifo.outIdx
        RINGBUF_MSG_SZ)).src_qid ≠ QEMU_PROCESS_ID) :=
  C9_read_return_collapse consDevBadSrc 4

/-- Independence of the receive path from the peer identity register:
the source-tag check compares against the constant QEMU_PROCESS_ID,
never against the `ivposition` value read from the device, so changing
`ivposition` changes neither the return value nor the copied bytes. -/
theorem ringbuf_read_ivposition (dev : RingbufDevice) (iv len : Nat) :
    (ringbuf_read { dev with ivposition := iv } len).ret
      = (ringbuf_read dev len).ret ∧
    (ringbuf_read { dev with ivposition := iv } len).copied
      = (ringbuf_read dev len).copied := by
  by_cases h1 : dev.role = Consumer
  · by_cases h2 : dev.mapped = true
    · by_cases h3 : RINGBUF_MSG_SZ ≤ kfifo_len dev.fifo
      · by_cases h4 : (decodeHd (fifoRead dev.fifo.data dev.fifo.outIdx
            RINGBUF_MSG_SZ)).src_qid = QEMU_PROCESS_ID
        · rw [ringbuf_read_accept dev len h1 h2 h3 h4,
            ringbuf_read_accept { dev with ivposition := iv } len h1 h2 h3 h4]
          exact ⟨rfl, rfl⟩
        · rw [ringbuf_read_reject dev len h1 h2 h3 h4,
            ringbuf_read_reject { dev with ivposition := iv } len h1 h2 h3 h4]
          exact ⟨rfl, rfl⟩
      · rw [ringbuf_read_noop dev len (Or.inr (Or.inr (Nat.not_le.mp h3))),
          ringbuf_read_noop { dev with ivposition := iv } len
            (Or.inr (Or.inr (Nat.not_le.mp h3)))]
        exact ⟨rfl, rfl⟩
    · rw [ringbuf_read_noop dev len (Or.inr (Or.inl (by simpa using h2))),
        ringbuf_read_noop { dev with ivposition := iv } len
          (Or.inr (Or.inl (by simpa using h2)))]
      exact ⟨rfl, rfl⟩
  · rw [ringbuf_read_noop dev len (Or.inl h1),
      ringbuf_read_noop { dev with ivposition := iv } len (Or.inl h1)]
    exact ⟨rfl, rfl⟩

/-- C10: QEMU_PROCESS_ID is the fixed constant 1; the header enqueued
by a send carries exactly that source tag; a receive of such a header
passes the source-tag validation (does not return `-EFAULT`); and the
validation ignores the peer identity `ivposition` read from the device
at mapping time — the receive result is unchanged under any value of
that register. -/
theorem C10_source_tag_constant (dev cons : RingbufDevice) (P : List Nat)
    (len iv : Nat)
    (hrole : dev.role = Producer) (hm : dev.mapped = true)
    (hidle : dev.fifo.outIdx = dev.fifo.inIdx) (hpt : dev.payload_pt < 2 ^ 32)
    (hcrole : cons.role = Consumer) (hcm : cons.mapped = true)
    (hcf : cons.fifo = (ringbuf_write dev P).dev.fifo) :
    QEMU_PROCESS_ID = 1 ∧
    (decodeHd (fifoRead (ringbuf_write dev P).dev.fifo.data
        (ringbuf_write dev P).dev.fifo.outIdx RINGBUF_MSG_SZ)).src_qid
      = QEMU_PROCESS_ID ∧
    (ringbuf_read cons len).ret ≠ -EFAULT ∧
    ((ringbuf_read { cons with ivposition := iv } len).ret
        = (ringbuf_read cons len).ret ∧
      (ringbuf_read { cons with ivposition := iv } len).copied
        = (ringbuf_read cons len).copied) := by
  have hsp : RINGBUF_MSG_SZ ≤ kfifo_avail dev.fifo := by
    simp [kfifo_avail, kfifo_len, hidle, RINGBUF_SZ]
    decide
  have hdec := write_then_decode dev P hrole hm hidle hpt
  have hW := ringbuf_write_success dev P hrole hm hsp
  refine ⟨rfl, by rw [hdec], ?_, ringbuf_read_ivposition cons iv len⟩
  have hclen : RINGBUF_MSG_SZ ≤ kfifo_len cons.fifo := by
    rw [hcf, hW]
    simp [kfifo_len, hidle]
  have hsrc : (decodeHd (fifoRead cons.fifo.data cons.fifo.outIdx
      RINGBUF_MSG_SZ)).src_qid = QEMU_PROCESS_ID := by
    rw [hcf]
    rw [hdec]
  rw [ringbuf_read_accept cons len hcrole hcm hclen hsrc]
  norm_num [EFAULT]

/-- Witness for C10: a concrete one-byte send whose header is then
received and validated, with the consumer's `ivposition` perturbed to
77. -/
theorem C10_witness :
    QEMU_PROCESS_ID = 1 ∧
    (decodeHd (fifoRead (ringbuf_write prodDev [5]).dev.fifo.data
        (ringbuf_write prodDev [5]).dev.fifo.outIdx RINGBUF_MSG_SZ)).src_qid
      = QEMU_PROCESS_ID ∧
    (ringbuf_read { (ringbuf_write prodDev [5]).dev with role := Consumer } 4).ret
      ≠ -EFAULT ∧
    ((ringbuf_read { { (ringbuf_write prodDev [5]).dev with role := Consumer } with
          ivposition := 77 } 4).ret
        = (ringbuf_read { (ringbuf_write prodDev [5]).dev with role := Consumer } 4).ret ∧
      (ringbuf_read { { (ringbuf_write prodDev [5]).dev with role := Consumer } with
          ivposition := 77 } 4).copied
        = (ringbuf_read { (ringbuf_write prodDev [5]).dev with role := Consumer } 4).copied) :=
  C10_source_tag_constant prodDev
    { (ringbuf_write prodDev [5]).dev with role := Consumer } [5] 4 77
    rfl rfl rfl (by decide) rfl (by decide) rfl

end Ringbuf
